import Mathlib

/-
Verification of the waybar status-bar data-provider scripts
(`config/waybar/scripts/waybar-cpu.py`, `config/waybar/scripts/waybar-storage.py`).

Modelling conventions:
- Python floats are modelled as exact rationals (ℚ); the integer energy
  counters as ℕ/ℤ.  All arithmetic in the scripts stays well within the
  range where float and exact arithmetic agree for the stated claims.
- A Python value that may raise is modelled with `Except PyErr`; a total
  Python function is a total Lean function.
- The color palette is modelled at its built-in defaults (the optional
  theme file of `load_theme_colors` absent), which is the palette the
  claims are phrased against; band selection is independent of palette.
-/

set_option autoImplicit false

namespace Waybar

/-- Python exception classes that the scripts can raise or catch. -/
inductive PyErr where
  | typeError
  | valueError
  | attributeError
  | osError
  deriving DecidableEq

/-- A Python value passed to `get_color` (the script passes ints/floats,
but the function's Python domain is any object): `none` is Python `None`,
`num` an int/float, `str s` a string together with what `float(s)` parses
it to (`Option.none` when `float(s)` raises `ValueError`), and `obj` any
other object (list, dict, ...), on which `float` raises `TypeError`. -/
inductive PyValue where
  | none
  | num (q : ℚ)
  | str (asFloat : Option ℚ)
  | obj
  deriving DecidableEq

/-- Python `float(value)`: identity on numbers, parse on strings
(`ValueError` when unparsable), `TypeError` on `None` and on any
non-numeric non-string object. -/
def pyFloat : PyValue → Except PyErr ℚ
  | PyValue.none => Except.error PyErr.typeError
  | PyValue.num q => Except.ok q
  | PyValue.str (some q) => Except.ok q
  | PyValue.str Option.none => Except.error PyErr.valueError
  | PyValue.obj => Except.error PyErr.typeError

/-- One entry of `COLOR_TABLE` in waybar-cpu.py: a color plus the inclusive
ranges keyed `"cpu_gpu_temp"` and `"cpu_power"`. -/
structure Band where
  color : String
  temp : ℚ × ℚ
  power : ℚ × ℚ
  deriving DecidableEq

/-- Table `COLOR_TABLE` from waybar-cpu.py (lines 62-70), at the default palette:
blue, cyan, green, yellow, bright_yellow, bright_red, red. -/
def COLOR_TABLE : List Band := [
  ⟨"#0000ff", (0, 35), (0, 30)⟩,
  ⟨"#00ffff", (36, 45), (31, 60)⟩,
  ⟨"#00ff00", (46, 54), (61, 90)⟩,
  ⟨"#ffff00", (55, 65), (91, 120)⟩,
  ⟨"#ffff55", (66, 75), (121, 150)⟩,
  ⟨"#ff5555", (76, 85), (151, 180)⟩,
  ⟨"#ff0000", (86, 999), (181, 999)⟩]

/-- Test `metric_type in entry` followed by `entry[metric_type]`: the range an
entry holds for a metric key, `Option.none` for any other key. -/
def bandRange (b : Band) (mt : String) : Option (ℚ × ℚ) :=
  if mt = "cpu_gpu_temp" then some b.temp
  else if mt = "cpu_power" then some b.power
  else Option.none

/-- Whether a band's range for `mt` contains `v` (inclusive ends). -/
def bandMatches (b : Band) (mt : String) (v : ℚ) : Bool :=
  match bandRange b mt with
  | some (lo, hi) => decide (lo ≤ v ∧ v ≤ hi)
  | Option.none => false

/-- The linear scan of `get_color`: first band whose inclusive range for
`mt` contains `v`. -/
def findBand : List Band → String → ℚ → Option String
  | [], _, _ => Option.none
  | b :: rest, mt, v =>
    match bandRange b mt with
    | some (lo, hi) => if lo ≤ v ∧ v ≤ hi then some b.color else findBand rest mt v
    | Option.none => findBand rest mt v

/-- Value `COLOR_TABLE[-1]["color"]`, the fall-through result of `get_color`. -/
def fallbackColor : String := ((COLOR_TABLE.getLast?).map Band.color).getD "#ffffff"

/-- Function `get_color` from waybar-cpu.py (lines 72-80).  `None` → `"#ffffff"`;
`float(value)` raising `ValueError` → `"#ffffff"`; any other exception of
`float` (notably `TypeError`) propagates, since only `ValueError` is
caught; a numeric value takes the first matching band's color, else
`COLOR_TABLE[-1]`'s color. -/
def get_color (value : PyValue) (metric_type : String) : Except PyErr String :=
  match value with
  | PyValue.none => Except.ok "#ffffff"
  | v =>
    match pyFloat v with
    | Except.error PyErr.valueError => Except.ok "#ffffff"
    | Except.error e => Except.error e
    | Except.ok q =>
      Except.ok (match findBand COLOR_TABLE metric_type q with
                 | some c => c
                 | Option.none => fallbackColor)

/-- Function `get_core_color` from waybar-cpu.py (lines 190-196): the 6-level
per-core palette with thresholds 20/40/60/80/95. -/
def get_core_color (usage : ℚ) : String :=
  if usage < 20 then "#81c8be"
  else if usage < 40 then "#a6d189"
  else if usage < 60 then "#e5c890"
  else if usage < 80 then "#ef9f76"
  else if usage < 95 then "#ea999c"
  else "#e78284"

/-- Constant `TOOLTIP_WIDTH` from waybar-cpu.py (line 31). -/
def TOOLTIP_WIDTH : ℕ := 50

/-- Constant `decay_factor` from waybar-cpu.py (line 183). -/
def decay_factor : ℚ := 0.95

/-- A `collections.deque(maxlen=...)` of floats: the bounded FIFO holding
the aggregate-CPU history. -/
structure Deque where
  maxlen : ℕ
  items : List ℚ
  deriving DecidableEq

/-- Operation `deque.append`: the new element goes to the right; when the length
would exceed `maxlen`, elements are discarded from the left. -/
def dequeAppend (d : Deque) (v : ℚ) : Deque :=
  ⟨d.maxlen,
   if d.maxlen < (d.items ++ [v]).length then
     (d.items ++ [v]).drop ((d.items ++ [v]).length - d.maxlen)
   else d.items ++ [v]⟩

/-- The `per_core_history` Python dict, core index ↦ EMA value, as an
association list with at most one binding per key. -/
abbrev Dict : Type := List (ℕ × ℚ)

/-- Dict lookup (`d[i]` / `i in d`): first binding for the key. -/
def dget : Dict → ℕ → Option ℚ
  | [], _ => Option.none
  | (k, v) :: rest, i => if k = i then some v else dget rest i

/-- Dict store `d[i] = u`: overwrite the existing binding in place, else
append a new one. -/
def dset : Dict → ℕ → ℚ → Dict
  | [], i, u => [(i, u)]
  | (k, v) :: rest, i, u =>
    if k = i then (i, u) :: rest else (k, v) :: dset rest i u

/-- One iteration of the per-core EMA loop, waybar-cpu.py lines 184-188:
`if i not in per_core_history: per_core_history[i] = usage
 else: per_core_history[i] = per_core_history[i]*decay_factor
                             + usage*(1-decay_factor)`. -/
def emaStep (d : Dict) (i : ℕ) (usage : ℚ) : Dict :=
  match dget d i with
  | Option.none => dset d i usage
  | some prior => dset d i (prior * decay_factor + usage * (1 - decay_factor))

/-- The loop `for i, usage in enumerate(per_core)`, carrying the running
index as Python's `enumerate` does. -/
def updateEMAAux (d : Dict) (i : ℕ) : List ℚ → Dict
  | [] => d
  | usage :: rest => updateEMAAux (emaStep d i usage) (i + 1) rest

/-- The whole per-core EMA update loop of waybar-cpu.py lines 184-188. -/
def updateEMA (d : Dict) (per_core : List ℚ) : Dict :=
  updateEMAAux d 0 per_core

/-- The value `emaStep` stores for a key: the sample itself when the key
is absent, else the decay blend with the prior value. -/
def blend : Option ℚ → ℚ → ℚ
  | Option.none, usage => usage
  | some prior, usage => prior * decay_factor + usage * (1 - decay_factor)

/-- The corrected energy delta of the RAPL block, waybar-cpu.py lines
164-173: `delta = energy2 - energy1`; if negative, `(max_e + energy2) -
energy1` when the `max_energy_range_uj` file exists, else
`(2**32 + energy2) - energy1`. -/
def rapl_delta (energy1 energy2 : ℕ) (max_range : Option ℕ) : ℤ :=
  let delta : ℤ := (energy2 : ℤ) - (energy1 : ℤ)
  if delta < 0 then
    match max_range with
    | some max_e => ((max_e : ℤ) + (energy2 : ℤ)) - (energy1 : ℤ)
    | Option.none => ((2 : ℤ) ^ 32 + (energy2 : ℤ)) - (energy1 : ℤ)
  else delta

/-- Line `cpu_power = (delta / 1_000_000) / 0.05`, waybar-cpu.py line 175. -/
def rapl_power (energy1 energy2 : ℕ) (max_range : Option ℕ) : ℚ :=
  ((rapl_delta energy1 energy2 max_range : ℚ) / 1000000) / 0.05

/-- One cell of the die grid: either a rendered core marker (its color and
whether the circle is filled `●` rather than hollow `○`) or substrate
filler `░░░` for a grid position with no core. -/
inductive GridCell where
  | core (color : String) (filled : Bool)
  | substrate
  deriving DecidableEq

/-- The body of one grid cell, waybar-cpu.py lines 237-244: position
`core_idx` renders `per_core[core_idx]` through `get_core_color` and the
`usage >= 10` fill test when `core_idx < len(per_core)`, else substrate. -/
def renderCell (per_core : List ℚ) (core_idx : ℕ) : GridCell :=
  match per_core.get? core_idx with
  | some usage => GridCell.core (get_core_color usage) (decide ((10 : ℚ) ≤ usage))
  | Option.none => GridCell.substrate

/-- The core grid loop, waybar-cpu.py lines 233-247: 6 rows × 4 columns,
cell `(row, col)` drawn from core index `row * 4 + col`.  Modelled at cell
granularity (the constant border/substrate glyphs around each row carry no
per-core data). -/
def renderGrid (per_core : List ℚ) : List (List GridCell) :=
  (List.range 6).map (fun row =>
    (List.range 4).map (fun col => renderCell per_core (row * 4 + col)))

/-- A value that `pickle.load` can return from the history file: a dict
(whose `'cpu'` and `'per_core'` entries may each be present or absent —
`.get` supplies the default for an absent key) or any non-dict pickled
value, on which `.get` raises `AttributeError`. -/
inductive PickledVal where
  | pdict (cpu : Option Deque) (per_core : Option Dict)
  | nonDict
  deriving DecidableEq

/-- The state of `/tmp/waybar_cpu_history.pkl` as `load_history` sees it:
`missing` (open raises `FileNotFoundError`), `unreadable` (open/read
raises, e.g. `PermissionError`), `corrupt` (`pickle.load` raises on the
bytes), or a valid pickle of some value. -/
inductive FileState where
  | missing
  | unreadable
  | corrupt
  | valid (v : PickledVal)
  deriving DecidableEq

/-- The fresh default snapshot of `load_history`:
`{'cpu': deque(maxlen=TOOLTIP_WIDTH), 'per_core': {}}`. -/
def freshSnapshot : PickledVal :=
  PickledVal.pdict (some ⟨TOOLTIP_WIDTH, []⟩) (some [])

/-- Function `load_history` from waybar-cpu.py (lines 112-117): return the pickled
value; the bare `except` turns every open/read/unpickle failure into the
fresh default snapshot, so the function itself never raises. -/
def load_history : FileState → PickledVal
  | FileState.valid v => v
  | _ => freshSnapshot

/-- The history unpacking of waybar-cpu.py lines 129-130:
`history.get('cpu', deque(maxlen=TOOLTIP_WIDTH))` and
`history.get('per_core', {})`.  On a dict, `.get` fills absent keys with
the defaults; on a non-dict value, `.get` raises `AttributeError`, and
these two lines sit outside any `try`. -/
def historyGet (h : PickledVal) : Except PyErr (Deque × Dict) :=
  match h with
  | PickledVal.pdict cpu per_core =>
    Except.ok (cpu.getD ⟨TOOLTIP_WIDTH, []⟩, per_core.getD [])
  | PickledVal.nonDict => Except.error PyErr.attributeError

/-- The JSON record a script prints: `text` and `tooltip` always; `markup`
and `class` present in the full records, absent from waybar-storage.py's
minimal error record (`class` is a Python keyword, hence `klass`). -/
structure OutputRecord where
  text : String
  tooltip : String
  markup : Option String
  klass : Option String
  deriving DecidableEq

/-- String form of a cell, abbreviating the pango span markup:
`[<color>●]` / `[<color>○]` for a core, `░░░` for substrate. -/
def cellStr : GridCell → String
  | GridCell.core c filled => "[" ++ c ++ (if filled then "●" else "○") ++ "]"
  | GridCell.substrate => "░░░"

/-- The six grid lines of the tooltip, at cell granularity. -/
def gridLines (per_core : List ℚ) : List String :=
  (renderGrid per_core).map (fun row => String.join (row.map cellStr))

/-- The inputs of one waybar-cpu.py invocation that the claims depend on:
the history-file state, the sensed temperature (after its own `try`, so
already degraded to 0 on failure), the aggregate and per-core samples, and
the two RAPL counter reads with the optional max-range value
(`Option.none` when no RAPL path was found or a read failed, in which case
power stays 0.0). -/
structure CpuEnv where
  historyFile : FileState
  maxTemp : ℕ
  cpuPercent : ℚ
  perCore : List ℚ
  rapl : Option (ℕ × ℕ × Option ℕ)
  deriving DecidableEq

/-- The top-level body of waybar-cpu.py (lines 128-290).  There is no
top-level `try/except`: a fault in the history unpacking (lines 129-130)
or in the tooltip/text assembly propagates out of the process —
`Except.error` models an uncaught Python exception (traceback on stderr,
non-zero exit status, nothing printed on stdout).  On success the script
prints the record and persists the updated history via `save_history`;
the result carries both. -/
def cpuMain (env : CpuEnv) : Except PyErr (OutputRecord × Deque × Dict) := do
  let hist ← historyGet (load_history env.historyFile)
  let cpu_history := dequeAppend hist.1 env.cpuPercent
  let per_core_history := updateEMA hist.2 env.perCore
  let cpu_power : ℚ :=
    match env.rapl with
    | some (e1, e2, mr) => rapl_power e1 e2 mr
    | Option.none => 0
  let tempColor ← get_color (PyValue.num env.maxTemp) "cpu_gpu_temp"
  let powerColor ← get_color (PyValue.num cpu_power) "cpu_power"
  Except.ok
    ({ text := "<span foreground='" ++ tempColor ++ "'>"
         ++ toString env.maxTemp ++ "°C</span>",
       tooltip := String.intercalate "\n"
         (["CPU", powerColor] ++ gridLines env.perCore),
       markup := some "pango",
       klass := some "cpu" },
     cpu_history, per_core_history)

/-- Fields of the `psutil.disk_usage` result used by waybar-storage.py. -/
structure DiskStats where
  total : ℕ
  used : ℕ
  free : ℕ
  percent : ℚ
  deriving DecidableEq

/-- Function `get_color` from waybar-storage.py (lines 11-14). -/
def storage_get_color (value : ℚ) : String :=
  if value < 40 then "#a6d189"
  else if value < 70 then "#e5c890"
  else "#e78284"

/-- The `try` body of waybar-storage.py's `main` (lines 17-44);
`Option.none` models `psutil.disk_usage` raising (e.g. `OSError`).
Tooltip abbreviated to its variable first line; `used_pct` is
`int(usage.percent)` (percent is non-negative, so `int` = floor). -/
def storageBody (disk : Option DiskStats) : Except PyErr OutputRecord :=
  match disk with
  | Option.none => Except.error PyErr.osError
  | some u =>
    let used_pct : ℤ := ⌊u.percent⌋
    Except.ok
      { text := "󰋊 <span foreground='" ++ storage_get_color used_pct ++ "'>"
          ++ toString used_pct ++ "%</span>",
        tooltip := "󰋊 Storage Dashboard",
        markup := some "pango",
        klass := some "storage" }

/-- Python `str(e)` of a caught exception, abbreviated to the class name. -/
def pyErrStr : PyErr → String
  | PyErr.typeError => "TypeError"
  | PyErr.valueError => "ValueError"
  | PyErr.attributeError => "AttributeError"
  | PyErr.osError => "OSError"

/-- The minimal error record of waybar-storage.py line 46:
`{"text": "Err", "tooltip": str(e)}`. -/
def errRecord (e : PyErr) : OutputRecord :=
  { text := "Err", tooltip := pyErrStr e,
    markup := Option.none, klass := Option.none }

/-- Function `main` of waybar-storage.py (lines 16-46): the whole body sits in
`try/except Exception`, so every invocation prints exactly one record and
exits 0 — the error branch prints the minimal record. -/
def storageMain (disk : Option DiskStats) : OutputRecord :=
  match storageBody disk with
  | Except.ok o => o
  | Except.error e => errRecord e

instance {ε α : Type} [DecidableEq ε] [DecidableEq α] : DecidableEq (Except ε α) :=
  fun x y =>
    match x, y with
    | Except.ok a, Except.ok b =>
      if h : a = b then isTrue (by rw [h]) else isFalse (by simp [h])
    | Except.error e, Except.error f =>
      if h : e = f then isTrue (by rw [h]) else isFalse (by simp [h])
    | Except.ok _, Except.error _ => isFalse (by simp)
    | Except.error _, Except.ok _ => isFalse (by simp)

/-! Helper lemmas about the dict operations and the EMA loop. -/

theorem dget_dset_self (d : Dict) (i : ℕ) (u : ℚ) : dget (dset d i u) i = some u := by
  induction d with
  | nil => simp [dset, dget]
  | cons kv rest ih =>
    obtain ⟨k, v⟩ := kv
    by_cases h : k = i
    · simp [dset, h, dget]
    · simp [dset, h, dget, ih]

theorem dget_dset_ne (d : Dict) (i j : ℕ) (u : ℚ) (h : j ≠ i) :
    dget (dset d i u) j = dget d j := by
  induction d with
  | nil => simp [dset, dget, Ne.symm h]
  | cons kv rest ih =>
    obtain ⟨k, v⟩ := kv
    by_cases hk : k = i
    · subst hk
      simp [dset, dget, Ne.symm h]
    · simp [dset, hk, dget, ih]

theorem dget_emaStep_self (d : Dict) (i : ℕ) (u : ℚ) :
    dget (emaStep d i u) i = some (blend (dget d i) u) := by
  cases h : dget d i with
  | none => simp [emaStep, h, blend, dget_dset_self]
  | some p => simp [emaStep, h, blend, dget_dset_self]

theorem dget_emaStep_ne (d : Dict) (i j : ℕ) (u : ℚ) (h : j ≠ i) :
    dget (emaStep d i u) j = dget d j := by
  cases hd : dget d i with
  | none => simp [emaStep, hd, dget_dset_ne _ _ _ _ h]
  | some p => simp [emaStep, hd, dget_dset_ne _ _ _ _ h]

/-- Keys outside the enumerated range of the loop are left untouched. -/
theorem updateEMAAux_untouched (sample : List ℚ) (d : Dict) (i j : ℕ)
    (h : j < i ∨ i + sample.length ≤ j) :
    dget (updateEMAAux d i sample) j = dget d j := by
  induction sample generalizing d i with
  | nil => rfl
  | cons u rest ih =>
    have hj : j ≠ i := by
      rcases h with h | h
      · omega
      · simp only [List.length_cons] at h; omega
    have h2 : j < i + 1 ∨ (i + 1) + rest.length ≤ j := by
      rcases h with h | h
      · exact Or.inl (by omega)
      · right; simp only [List.length_cons] at h; omega
    calc dget (updateEMAAux d i (u :: rest)) j
        = dget (updateEMAAux (emaStep d i u) (i + 1) rest) j := rfl
      _ = dget (emaStep d i u) j := ih (emaStep d i u) (i + 1) h2
      _ = dget d j := dget_emaStep_ne _ _ _ _ hj

/-- The key `i + p` ends up holding the blend of its prior value with the
`p`-th sample of the enumerated tail starting at index `i`. -/
theorem updateEMAAux_get (sample : List ℚ) (d : Dict) (i p : ℕ)
    (hp : p < sample.length) :
    dget (updateEMAAux d i sample) (i + p)
      = some (blend (dget d (i + p)) (sample.get ⟨p, hp⟩)) := by
  induction sample generalizing d i p with
  | nil => exact absurd hp (by simp)
  | cons u rest ih =>
    cases p with
    | zero =>
      have huntouched :
          dget (updateEMAAux (emaStep d i u) (i + 1) rest) (i + 0)
            = dget (emaStep d i u) (i + 0) :=
        updateEMAAux_untouched rest _ (i + 1) (i + 0) (Or.inl (by omega))
      calc dget (updateEMAAux d i (u :: rest)) (i + 0)
          = dget (emaStep d i u) (i + 0) := huntouched
        _ = some (blend (dget d (i + 0)) u) := by
            rw [Nat.add_zero]; exact dget_emaStep_self d i u
    | succ q =>
      have hq : q < rest.length := by simpa using hp
      have e1 : i + (q + 1) = (i + 1) + q := by omega
      calc dget (updateEMAAux d i (u :: rest)) (i + (q + 1))
          = dget (updateEMAAux (emaStep d i u) (i + 1) rest) ((i + 1) + q) := by
            rw [e1]; rfl
        _ = some (blend (dget (emaStep d i u) ((i + 1) + q)) (rest.get ⟨q, hq⟩)) :=
            ih (emaStep d i u) (i + 1) q hq
        _ = some (blend (dget d (i + (q + 1))) ((u :: rest).get ⟨q + 1, hp⟩)) := by
            rw [dget_emaStep_ne _ _ _ _ (by omega), e1]; rfl

/-- Pointwise description of the whole EMA update. -/
theorem updateEMA_get (d : Dict) (sample : List ℚ) (i : ℕ) (h : i < sample.length) :
    dget (updateEMA d sample) i = some (blend (dget d i) (sample.get ⟨i, h⟩)) := by
  have := updateEMAAux_get sample d 0 i h
  rwa [Nat.zero_add] at this

/-! Helper lemmas about the bounded FIFO. -/

/-- While there is room, `deque.append` just appends on the right. -/
theorem foldl_dequeAppend_fill (vs : List ℚ) (N : ℕ) (q : List ℚ)
    (h : q.length + vs.length ≤ N) :
    List.foldl dequeAppend ⟨N, q⟩ vs = ⟨N, q ++ vs⟩ := by
  induction vs generalizing q with
  | nil => simp
  | cons v rest ih =>
    have hnot : ¬ N < (q ++ [v]).length := by
      simp only [List.length_cons] at h
      simp only [List.length_append, List.length_cons, List.length_nil]
      omega
    have step : dequeAppend ⟨N, q⟩ v = ⟨N, q ++ [v]⟩ := by
      simp only [dequeAppend, if_neg hnot]
    have hlen : (q ++ [v]).length + rest.length ≤ N := by
      simp only [List.length_cons] at h
      simp only [List.length_append, List.length_cons, List.length_nil]
      omega
    rw [List.foldl_cons, step, ih (q ++ [v]) hlen]
    simp

/-! Helper lemmas about the color-band scan. -/

/-- When no band's range for `mt` contains `v`, the scan finds nothing. -/
theorem findBand_eq_none (table : List Band) (mt : String) (v : ℚ)
    (h : ∀ b ∈ table, bandMatches b mt v = false) :
    findBand table mt v = Option.none := by
  induction table with
  | nil => rfl
  | cons b rest ih =>
    have hb := h b (List.mem_cons_self b rest)
    have hrest : ∀ b2 ∈ rest, bandMatches b2 mt v = false :=
      fun b2 hb2 => h b2 (List.mem_cons_of_mem b hb2)
    cases hr : bandRange b mt with
    | none => simp [findBand, hr, ih hrest]
    | some pair =>
      obtain ⟨lo, hi⟩ := pair
      have hnm : ¬ (lo ≤ v ∧ v ≤ hi) := by
        simpa [bandMatches, hr] using hb
      simp [findBand, hr, hnm, ih hrest]

/-- The scan returns the color of the first matching band. -/
theorem findBand_first (table : List Band) (mt : String) (v : ℚ) (i : ℕ) (b : Band)
    (hget : table.get? i = some b)
    (hmatch : bandMatches b mt v = true)
    (hbefore : ∀ j b2, j < i → table.get? j = some b2 → bandMatches b2 mt v = false) :
    findBand table mt v = some b.color := by
  induction table generalizing i with
  | nil => simp at hget
  | cons hd rest ih =>
    cases i with
    | zero =>
      have hb : hd = b := by simpa using hget
      subst hb
      cases hr : bandRange hd mt with
      | none => simp [bandMatches, hr] at hmatch
      | some pair =>
        obtain ⟨lo, hi⟩ := pair
        have hin : lo ≤ v ∧ v ≤ hi := by
          have := hmatch
          simp only [bandMatches, hr] at this
          exact of_decide_eq_true this
        simp [findBand, hr, hin]
    | succ i2 =>
      have hget2 : rest.get? i2 = some b := hget
      have hd0 : bandMatches hd mt v = false :=
        hbefore 0 hd (Nat.succ_pos i2) rfl
      have hbefore2 : ∀ j b2, j < i2 → rest.get? j = some b2 →
          bandMatches b2 mt v = false :=
        fun j b2 hj hg => hbefore (j + 1) b2 (by omega) hg
      have htail := ih i2 hget2 hbefore2
      cases hr : bandRange hd mt with
      | none => simp [findBand, hr, htail]
      | some pair =>
        obtain ⟨lo, hi⟩ := pair
        have hnm : ¬ (lo ≤ v ∧ v ≤ hi) := by
          simpa [bandMatches, hr] using hd0
        simp [findBand, hr, hnm, htail]

/-! Helper lemmas about the die grid. -/

/-- A grid position below 24 only consults the first 24 samples. -/
theorem renderCell_take (p : List ℚ) (i : ℕ) (h : i < 24) :
    renderCell (p.take 24) i = renderCell p i := by
  rw [renderCell, renderCell, List.get?_take h]

/-- The diagram is a function of the first 24 per-core samples only:
cores with index ≥ 24 never appear in it. -/
theorem renderGrid_take (p : List ℚ) : renderGrid (p.take 24) = renderGrid p := by
  rw [renderGrid, renderGrid]
  apply List.map_congr_left
  intro row hrow
  apply List.map_congr_left
  intro col hcol
  rw [List.mem_range] at hrow hcol
  exact renderCell_take p (row * 4 + col) (by omega)

/-- The cell at `(row, col)` of the grid is the rendering of core index
`row * 4 + col`. -/
theorem renderGrid_get (p : List ℚ) (row col : ℕ) (hr : row < 6) (hc : col < 4) :
    ((renderGrid p).get? row).map (fun r => r.get? col)
      = some (some (renderCell p (row * 4 + col))) := by
  rw [renderGrid, List.get?_map, List.get?_range hr]
  simp only [Option.map_some', Option.some.injEq]
  rw [List.get?_map, List.get?_range hc]
  rfl

/-- Full characterization of a run of appends: starting from a deque with
at most `N` items, the result keeps the last `N` of old-items-then-values,
in order. -/
theorem foldl_dequeAppend_general (vs : List ℚ) (N : ℕ) (q : List ℚ)
    (hq : q.length ≤ N) :
    List.foldl dequeAppend ⟨N, q⟩ vs
      = ⟨N, (q ++ vs).drop (q.length + vs.length - N)⟩ := by
  induction vs generalizing q with
  | nil => simp [Nat.sub_eq_zero_of_le hq]
  | cons v rest ih =>
    rw [List.foldl_cons]
    by_cases hfull : N < (q ++ [v]).length
    · have hlen : q.length = N := by
        simp only [List.length_append, List.length_cons, List.length_nil] at hfull
        omega
      have hsub : (q ++ [v]).length - N = 1 := by
        simp [hlen]
      have step : dequeAppend ⟨N, q⟩ v = ⟨N, (q ++ [v]).drop 1⟩ := by
        simp only [dequeAppend, if_pos hfull, hsub]
      have hq2 : ((q ++ [v]).drop 1).length ≤ N := by
        simp [hlen]
      rw [step, ih _ hq2]
      have hdd : ((q ++ [v]).drop 1) ++ rest = (q ++ v :: rest).drop 1 := by
        rw [← List.drop_append_of_le_length (by simp : 1 ≤ (q ++ [v]).length)]
        rw [List.append_assoc]
        rfl
      rw [hdd, List.drop_drop]
      have hc : 1 + (((q ++ [v]).drop 1).length + rest.length - N)
          = q.length + (v :: rest).length - N := by
        rw [List.length_drop]
        simp only [List.length_append, List.length_cons, List.length_nil]
        omega
      rw [hc]
    · have step : dequeAppend ⟨N, q⟩ v = ⟨N, q ++ [v]⟩ := by
        simp only [dequeAppend, if_neg hfull]
      have hq2 : (q ++ [v]).length ≤ N := by
        simp only [List.length_append, List.length_cons, List.length_nil] at hfull ⊢
        omega
      rw [step, ih _ hq2, List.append_assoc]
      have hc : (q ++ [v]).length + rest.length - N
          = q.length + (v :: rest).length - N := by
        simp only [List.length_append, List.length_cons, List.length_nil]
        omega
      rw [hc]
      rfl

/-! Claim theorems. -/

/-- C1: For two counter reads E1, E2 taken 0.05 s apart, if E2 ≥ E1 the
reported power is (E2−E1)/1e6/0.05 W; if E2 < E1 the corrected delta is
(max_range − E1) + E2 when the max-range file is available, else
(2^32 − E1) + E2, and power is corrected_delta/1e6/0.05; in particular
E1=100, E2=50, max_range=1000 gives delta 950, and E1=4_000_000_000,
E2=100 with the 32-bit fallback gives (2^32 − 4_000_000_000) + 100. -/
theorem c1_energy_sampler_arithmetic :
    (∀ (e1 e2 : ℕ) (mr : Option ℕ), e1 ≤ e2 →
        rapl_power e1 e2 mr = (((e2 : ℚ) - (e1 : ℚ)) / 1000000) / 0.05) ∧
    (∀ (e1 e2 m : ℕ), e2 < e1 →
        rapl_delta e1 e2 (some m) = ((m : ℤ) - (e1 : ℤ)) + (e2 : ℤ)) ∧
    (∀ (e1 e2 : ℕ), e2 < e1 →
        rapl_delta e1 e2 Option.none = ((2 : ℤ) ^ 32 - (e1 : ℤ)) + (e2 : ℤ)) ∧
    (∀ (e1 e2 : ℕ) (mr : Option ℕ),
        rapl_power e1 e2 mr = ((rapl_delta e1 e2 mr : ℚ) / 1000000) / 0.05) ∧
    rapl_delta 100 50 (some 1000) = 950 ∧
    rapl_delta 4000000000 100 Option.none = ((2 : ℤ) ^ 32 - 4000000000) + 100 := by
  refine ⟨?_, ?_, ?_, fun e1 e2 mr => rfl, by decide, by decide⟩
  · intro e1 e2 mr h
    have hnot : ¬ ((e2 : ℤ) - (e1 : ℤ) < 0) := by omega
    simp only [rapl_power, rapl_delta, hnot, if_false]
    push_cast
    ring
  · intro e1 e2 m h
    have hlt : (e2 : ℤ) - (e1 : ℤ) < 0 := by omega
    simp only [rapl_delta, hlt, if_true]
    omega
  · intro e1 e2 h
    have hlt : (e2 : ℤ) - (e1 : ℤ) < 0 := by omega
    simp only [rapl_delta, hlt, if_true]
    ring

/-- Witness for C1 at concrete counter reads. -/
theorem c1_witness :
    (100 : ℕ) ≤ 300 ∧ (50 : ℕ) < 100 ∧ (100 : ℕ) < 4000000000 ∧
    rapl_power 100 300 Option.none = (((300 : ℚ) - (100 : ℚ)) / 1000000) / 0.05 ∧
    rapl_delta 100 50 (some 1000) = ((1000 : ℤ) - (100 : ℤ)) + (50 : ℤ) ∧
    rapl_delta 4000000000 100 Option.none
      = ((2 : ℤ) ^ 32 - (4000000000 : ℤ)) + (100 : ℤ) :=
  ⟨by decide, by decide, by decide,
   c1_energy_sampler_arithmetic.1 100 300 Option.none (by decide),
   c1_energy_sampler_arithmetic.2.1 100 50 1000 (by decide),
   c1_energy_sampler_arithmetic.2.2.1 4000000000 100 (by decide)⟩

/-- C4: per-core EMA update — a core with no prior entry stores exactly
the sample; a core with prior entry p and sample u stores p·0.95 + u·0.05;
prior 50.0 with sample 60.0 yields 50.5. -/
theorem c4_ema_update :
    (∀ (d : Dict) (sample : List ℚ) (i : ℕ) (h : i < sample.length),
        dget d i = Option.none →
        dget (updateEMA d sample) i = some (sample.get ⟨i, h⟩)) ∧
    (∀ (d : Dict) (sample : List ℚ) (i : ℕ) (h : i < sample.length) (prior : ℚ),
        dget d i = some prior →
        dget (updateEMA d sample) i
          = some (prior * 0.95 + sample.get ⟨i, h⟩ * 0.05)) ∧
    dget (updateEMA [(0, 50)] [(60 : ℚ)]) 0 = some 50.5 := by
  refine ⟨?_, ?_, ?_⟩
  · intro d sample i h hnone
    rw [updateEMA_get d sample i h, hnone]
    rfl
  · intro d sample i h prior hsome
    rw [updateEMA_get d sample i h, hsome]
    have : blend (some prior) (sample.get ⟨i, h⟩)
        = prior * 0.95 + sample.get ⟨i, h⟩ * 0.05 := by
      simp only [blend, decay_factor]
      norm_num
    rw [this]
  · with_unfolding_all decide

/-- Witness for C4 at a concrete dict and sample. -/
theorem c4_witness :
    dget ([(3, 20)] : Dict) 0 = Option.none ∧
    dget (updateEMA [(3, 20)] [(7 : ℚ), 8]) 0 = some 7 ∧
    dget ([(0, 50)] : Dict) 0 = some 50 ∧
    dget (updateEMA [(0, 50)] [(60 : ℚ)]) 0 = some (50 * 0.95 + 60 * 0.05) :=
  ⟨rfl,
   c4_ema_update.1 [(3, 20)] [7, 8] 0 (by decide) rfl,
   rfl,
   c4_ema_update.2.1 [(0, 50)] [60] 0 (by decide) 50 rfl⟩

/-- C5: on a missing, unreadable or corrupt (unpicklable) history file,
`load_history` returns the fresh snapshot — empty FIFO of capacity
`TOOLTIP_WIDTH = 50` and empty core-EMA mapping — and never raises (it is
total, and unpacking the fresh snapshot succeeds). -/
theorem c5_load_history_fresh :
    (∀ fs : FileState,
        fs = FileState.missing ∨ fs = FileState.unreadable ∨ fs = FileState.corrupt →
        load_history fs = freshSnapshot ∧
        historyGet (load_history fs)
          = Except.ok (⟨TOOLTIP_WIDTH, []⟩, ([] : Dict))) ∧
    freshSnapshot = PickledVal.pdict (some ⟨50, []⟩) (some []) ∧
    TOOLTIP_WIDTH = 50 := by
  refine ⟨?_, rfl, rfl⟩
  intro fs h
  rcases h with h | h | h <;> subst h <;> exact ⟨rfl, rfl⟩

/-- Witness for C5 at the missing-file state. -/
theorem c5_witness :
    load_history FileState.missing = freshSnapshot ∧
    historyGet (load_history FileState.missing)
      = Except.ok (⟨TOOLTIP_WIDTH, []⟩, ([] : Dict)) :=
  c5_load_history_fresh.1 FileState.missing (Or.inl rfl)

/-- C7: appending N+1 values to the capacity-N FIFO (N = TOOLTIP_WIDTH =
50 by default) starting empty evicts exactly the oldest value: the result
is the input sequence minus its first element, in insertion order, of
length exactly N. -/
theorem c7_fifo_ring_buffer (N : ℕ) (vs : List ℚ) (h : vs.length = N + 1) :
    List.foldl dequeAppend ⟨N, []⟩ vs = ⟨N, vs.drop 1⟩ ∧
    (List.foldl dequeAppend ⟨N, []⟩ vs).items.length = N ∧
    TOOLTIP_WIDTH = 50 := by
  have hmain : List.foldl dequeAppend ⟨N, []⟩ vs = ⟨N, vs.drop 1⟩ := by
    have hg := foldl_dequeAppend_general vs N [] (by simp)
    have hc : ([] : List ℚ).length + vs.length - N = 1 := by
      simp [h]
    rw [hg, hc]
    rfl
  refine ⟨hmain, ?_, rfl⟩
  rw [hmain, List.length_drop, h]
  omega

/-- Witness for C7 at capacity 2 with three appends. -/
theorem c7_witness :
    ([(1 : ℚ), 2, 3] : List ℚ).length = 2 + 1 ∧
    List.foldl dequeAppend ⟨2, []⟩ [(1 : ℚ), 2, 3] = ⟨2, [(2 : ℚ), 3]⟩ :=
  ⟨by decide, (c7_fifo_ring_buffer 2 [1, 2, 3] (by decide)).1⟩

/-- C9: a core index present in the loaded EMA mapping but absent from the
current sample (index ≥ sample length) keeps exactly its prior entry. -/
theorem c9_stale_entries_untouched (d : Dict) (sample : List ℚ) (j : ℕ)
    (h : sample.length ≤ j) :
    dget (updateEMA d sample) j = dget d j :=
  updateEMAAux_untouched sample d 0 j (Or.inr (by omega))

/-- Witness for C9: key 7 survives an update sampling only core 0. -/
theorem c9_witness :
    ([(5 : ℚ)] : List ℚ).length ≤ 7 ∧
    dget (updateEMA [(7, 33)] [(5 : ℚ)]) 7 = dget ([(7, 33)] : Dict) 7 :=
  ⟨by decide, c9_stale_entries_untouched [(7, 33)] [5] 7 (by decide)⟩

/-- C6 counterexample: `get_color` applied to a non-numeric, non-string
object (e.g. a list) is NOT total — `float(value)` raises `TypeError`,
and line 75 catches only `ValueError`, so the call fails instead of
returning a color. -/
theorem c6_counterexample :
    get_color PyValue.obj "cpu_power" = Except.error PyErr.typeError := rfl

/-- C6 (amended): for every `None`, numeric, or string input `get_color`
returns a valid color and never fails — `None` and non-numeric strings
give the fixed neutral color, a numeric string behaves like its number, a
number in some band's inclusive range gives the first such band's color,
and a number above all bands gives the last band's color.  Inputs of any
other type make `float()` raise `TypeError`, which `get_color` does not
catch (see the counterexample). -/
theorem c6_color_mapping_totality :
    (∀ mt : String, get_color PyValue.none mt = Except.ok "#ffffff") ∧
    (∀ mt : String, get_color (PyValue.str Option.none) mt = Except.ok "#ffffff") ∧
    (∀ (mt : String) (q : ℚ),
        get_color (PyValue.str (some q)) mt = get_color (PyValue.num q) mt) ∧
    (∀ (mt : String) (v : PyValue), v ≠ PyValue.obj →
        (get_color v mt).isOk = true) ∧
    (∀ (mt : String) (v : ℚ) (i : ℕ) (b : Band),
        COLOR_TABLE.get? i = some b →
        bandMatches b mt v = true →
        (∀ j b2, j < i → COLOR_TABLE.get? j = some b2 →
          bandMatches b2 mt v = false) →
        get_color (PyValue.num v) mt = Except.ok b.color) ∧
    (∀ (mt : String) (v : ℚ),
        (∀ b ∈ COLOR_TABLE, ∀ lo hi, bandRange b mt = some (lo, hi) → hi < v) →
        get_color (PyValue.num v) mt = Except.ok fallbackColor) := by
  refine ⟨fun mt => rfl, fun mt => rfl, fun mt q => rfl, ?_, ?_, ?_⟩
  · intro mt v hv
    cases v with
    | none => rfl
    | num q => rfl
    | str o => cases o with
      | none => rfl
      | some q => rfl
    | obj => exact absurd rfl hv
  · intro mt v i b hget hm hb
    have hfb := findBand_first COLOR_TABLE mt v i b hget hm hb
    simp [get_color, pyFloat, hfb]
  · intro mt v h
    have hall : ∀ b ∈ COLOR_TABLE, bandMatches b mt v = false := by
      intro b hb
      cases hr : bandRange b mt with
      | none => simp [bandMatches, hr]
      | some pair =>
        obtain ⟨lo, hi⟩ := pair
        simp only [bandMatches, hr, decide_eq_false_iff_not]
        exact fun hc => absurd hc.2 (not_le.2 (h b hb lo hi hr))
    have hfn := findBand_eq_none COLOR_TABLE mt v hall
    simp [get_color, pyFloat, hfn]

/-- Witness for C6: 40 °C lands in the second temperature band (cyan), and
a power value above every band falls back to the last band's color. -/
theorem c6_witness :
    bandMatches ⟨"#00ffff", (36, 45), (31, 60)⟩ "cpu_gpu_temp" 40 = true ∧
    get_color (PyValue.num (40 : ℚ)) "cpu_gpu_temp" = Except.ok "#00ffff" ∧
    get_color (PyValue.num (5000 : ℚ)) "cpu_power" = Except.ok fallbackColor :=
  ⟨by with_unfolding_all decide,
   c6_color_mapping_totality.2.2.2.2.1 "cpu_gpu_temp" 40 1
     ⟨"#00ffff", (36, 45), (31, 60)⟩ rfl
     (by with_unfolding_all decide)
     (by
       intro j b2 hj hg
       have hj0 : j = 0 := by omega
       subst hj0
       injection hg with hb2
       subst hb2
       with_unfolding_all decide),
   c6_color_mapping_totality.2.2.2.2.2 "cpu_power" 5000
     (by
       intro b hb lo hi hr
       fin_cases hb <;>
         · injection hr with h1
           injection h1 with h2 h3
           subst h2
           subst h3
           norm_num)⟩

/-- C10: a numeric value contained in no band's inclusive range — below
the lowest band or in a gap between bands — gets the color of the last,
highest-severity band (`COLOR_TABLE[-1]`), which is not the neutral
color. -/
theorem c10_unmatched_values_last_band (v : ℚ) (mt : String)
    (h : ∀ b ∈ COLOR_TABLE, bandMatches b mt v = false) :
    get_color (PyValue.num v) mt = Except.ok fallbackColor ∧
    fallbackColor = "#ff0000" ∧ fallbackColor ≠ "#ffffff" := by
  refine ⟨?_, rfl, by decide⟩
  have hfn := findBand_eq_none COLOR_TABLE mt v h
  simp [get_color, pyFloat, hfn]

/-- Witness for C10 at the gap value 35.5 °C and the negative value −5 °C. -/
theorem c10_witness :
    get_color (PyValue.num (35.5 : ℚ)) "cpu_gpu_temp" = Except.ok fallbackColor ∧
    get_color (PyValue.num (-5 : ℚ)) "cpu_gpu_temp" = Except.ok fallbackColor :=
  ⟨(c10_unmatched_values_last_band 35.5 "cpu_gpu_temp"
      (by with_unfolding_all decide)).1,
   (c10_unmatched_values_last_band (-5) "cpu_gpu_temp"
      (by with_unfolding_all decide)).1⟩

/-- C3 counterexample: with one core sampled at 5% whose stored EMA
(prior 100) updates to 95.25, the EMA-driven cell would be filled
(95.25 ≥ 10) and colored "#e78284", but the rendered cell is hollow and
colored "#81c8be" — the grid is drawn from the instantaneous sample
`per_core[core_idx]`, not from the EMA value. -/
theorem c3_counterexample :
    dget (updateEMA [(0, 100)] [(5 : ℚ)]) 0 = some 95.25 ∧
    (10 : ℚ) ≤ 95.25 ∧
    get_core_color 95.25 = "#e78284" ∧
    renderCell [(5 : ℚ)] 0 = GridCell.core "#81c8be" false ∧
    GridCell.core "#e78284" true ≠ GridCell.core "#81c8be" false := by
  refine ⟨?_, ?_, ?_, ?_, ?_⟩ <;> with_unfolding_all decide

/-- C3 (amended): every cell of the 6×4 grid is computed from that core's
INSTANTANEOUS utilization sample — color via `get_core_color` on the
sample, filled iff the sample is ≥ 10.  The renderer takes only the
per-core sample list as input, so the cell is independent of the EMA
mapping (which is updated and persisted but not rendered). -/
theorem c3_cell_from_instantaneous_sample (per_core : List ℚ) (row col : ℕ)
    (hr : row < 6) (hc : col < 4) (u : ℚ)
    (hu : per_core.get? (row * 4 + col) = some u) :
    ((renderGrid per_core).get? row).map (fun r => r.get? col)
      = some (some (GridCell.core (get_core_color u) (decide ((10 : ℚ) ≤ u)))) := by
  rw [renderGrid_get per_core row col hr hc]
  rw [List.get?_eq_getElem?] at hu
  simp [renderCell, hu]

/-- Witness for C3 (amended) at sample [50, 5], cell (0, 1). -/
theorem c3_witness :
    ([(50 : ℚ), 5] : List ℚ).get? (0 * 4 + 1) = some 5 ∧
    ((renderGrid [(50 : ℚ), 5]).get? 0).map (fun r => r.get? 1)
      = some (some (GridCell.core "#81c8be" false)) :=
  ⟨rfl,
   (c3_cell_from_instantaneous_sample [50, 5] 0 1 (by decide) (by decide) 5
       rfl).trans (by with_unfolding_all decide)⟩

/-- C8: the renderer always emits exactly 6 rows of 4 cells for every core
count; the diagram depends only on the first 24 samples (cores with index
≥ 24 never appear in it), yet every sampled index — including those ≥ 24 —
is updated in and present in the persisted EMA mapping. -/
theorem c8_fixed_grid_geometry :
    (∀ per_core : List ℚ, (renderGrid per_core).length = 6) ∧
    (∀ (per_core : List ℚ) (row : ℕ), row < 6 →
        ((renderGrid per_core).get? row).map List.length = some 4) ∧
    (∀ per_core : List ℚ, renderGrid (per_core.take 24) = renderGrid per_core) ∧
    (∀ (d : Dict) (sample : List ℚ) (i : ℕ), i < sample.length →
        (dget (updateEMA d sample) i).isSome = true) := by
  refine ⟨?_, ?_, renderGrid_take, ?_⟩
  · intro per_core
    simp [renderGrid]
  · intro per_core row hrow
    rw [renderGrid, List.get?_map, List.get?_range hrow]
    simp
  · intro d sample i h
    rw [updateEMA_get d sample i h]
    rfl

/-- Witness for C8 with 32 sampled cores: 6 rows, 4 cells in the last row,
the diagram unchanged by dropping cores 24-31, and core 31 present in the
updated EMA mapping. -/
theorem c8_witness :
    (renderGrid (List.replicate 32 (0 : ℚ))).length = 6 ∧
    ((renderGrid (List.replicate 32 (0 : ℚ))).get? 5).map List.length = some 4 ∧
    renderGrid ((List.replicate 32 (0 : ℚ)).take 24)
      = renderGrid (List.replicate 32 (0 : ℚ)) ∧
    (dget (updateEMA [] (List.replicate 32 (0 : ℚ))) 31).isSome = true :=
  ⟨c8_fixed_grid_geometry.1 (List.replicate 32 0),
   c8_fixed_grid_geometry.2.1 (List.replicate 32 0) 5 (by decide),
   c8_fixed_grid_geometry.2.2.1 (List.replicate 32 0),
   c8_fixed_grid_geometry.2.2.2 [] (List.replicate 32 0) 31 (by decide)⟩

/-- C2 counterexample: waybar-cpu.py has no top-level handler — when the
history file holds a valid pickle of a non-dict value, the unpacking at
lines 129-130 raises `AttributeError` outside any `try`, so the process
does not print a JSON record and does not exit 0. -/
theorem c2_counterexample :
    cpuMain { historyFile := FileState.valid PickledVal.nonDict, maxTemp := 0,
              cpuPercent := 0, perCore := [], rapl := Option.none }
      = Except.error PyErr.attributeError := rfl

/-- C2 (amended): only waybar-storage.py has the outermost boundary the
claim describes — its `main` yields exactly one record per invocation,
the body's record on success and the minimal `{text, tooltip}` error
record on any body fault.  waybar-cpu.py's module body has no top-level
handler, so a fault during its top-level assembly (e.g. a history file
unpickling to a non-dict) propagates: no JSON is printed and the exit
status is non-zero. -/
theorem c2_top_level_fault_boundary :
    (∀ (d : Option DiskStats) (o : OutputRecord),
        storageBody d = Except.ok o → storageMain d = o) ∧
    (∀ (d : Option DiskStats) (e : PyErr),
        storageBody d = Except.error e → storageMain d = errRecord e) ∧
    (∀ env : CpuEnv, env.historyFile = FileState.valid PickledVal.nonDict →
        cpuMain env = Except.error PyErr.attributeError) := by
  refine ⟨?_, ?_, ?_⟩
  · intro d o h
    simp [storageMain, h]
  · intro d e h
    simp [storageMain, h]
  · intro env h
    obtain ⟨hf, t, c, p, r⟩ := env
    cases h
    rfl

/-- Witness for C2: a failing disk probe still yields the minimal error
record from storage's `main`, while a bad history pickle aborts the cpu
module. -/
theorem c2_witness :
    storageMain Option.none = errRecord PyErr.osError ∧
    cpuMain { historyFile := FileState.valid PickledVal.nonDict, maxTemp := 5,
              cpuPercent := 1, perCore := [2], rapl := some (100, 300, Option.none) }
      = Except.error PyErr.attributeError :=
  ⟨c2_top_level_fault_boundary.2.1 Option.none PyErr.osError rfl,
   c2_top_level_fault_boundary.2.2 _ rfl⟩

end Waybar
